import Mathlib

/-!
Verification development for the PowerDMS catalog scraper
(src/powerdms-poweruser.py).

The program is a linear pipeline: resolve a site URL, fetch the document
catalog as JSON, and write two artifacts (a CSV index and a shell download
script).  This file gives a shallow embedding of that pipeline:

* strings are Lean strings, handled at the level of their character lists
  (Python indexes and slices strings by code points);
* the pure sanitizer and the two artifact writers are translated function
  by function from the source;
* the network fetch and the JSON parse are external library calls
  (requests / json); their possible results are an explicit input
  (FetchOutcome) to the pipeline function, and the pipeline's file effects
  are returned as an explicit list of writes.
-/

/-- Characters replaced with a space by the first substitution of
safe_filename, the regex class of the reserved set. -/
def reservedChar (c : Char) : Bool :=
  c = '<' || c = '>' || c = ':' || c = '"' || c = '/' || c = '\\' ||
  c = '|' || c = '?' || c = '*'

/-- Whitespace as matched by the regex whitespace class on Python 3
strings: the six ASCII whitespace characters together with the other code
points the Unicode database classifies as whitespace. -/
def pySpace (c : Char) : Bool :=
  c = ' ' || c = '\t' || c = '\n' || c = '\r' || c = '\x0b' || c = '\x0c' ||
  c = '\x1c' || c = '\x1d' || c = '\x1e' || c = '\x1f' ||
  c = '\u0085' || c = '\u00a0' || c = '\u1680' ||
  c = '\u2000' || c = '\u2001' || c = '\u2002' || c = '\u2003' ||
  c = '\u2004' || c = '\u2005' || c = '\u2006' || c = '\u2007' ||
  c = '\u2008' || c = '\u2009' || c = '\u200a' ||
  c = '\u2028' || c = '\u2029' || c = '\u202f' || c = '\u205f' || c = '\u3000'

/-- First substitution of safe_filename: every reserved character becomes
a space. -/
def subReserved (l : List Char) : List Char :=
  l.map (fun c => if reservedChar c then ' ' else c)

/-- Worker for the second substitution: each maximal run of whitespace
becomes a single underscore.  The flag records whether the previous
character was inside a whitespace run. -/
def collapseWsAux : List Char → Bool → List Char
  | [], _ => []
  | c :: rest, inRun =>
    if pySpace c then
      if inRun then collapseWsAux rest true
      else '_' :: collapseWsAux rest true
    else c :: collapseWsAux rest false

/-- Second substitution of safe_filename: replace every maximal whitespace
run with one underscore. -/
def collapseWs (l : List Char) : List Char :=
  collapseWsAux l false

/-- Python str.strip with no argument: remove leading and trailing
whitespace. -/
def pyStrip (l : List Char) : List Char :=
  ((l.dropWhile pySpace).reverse.dropWhile pySpace).reverse

/-- The trailing-dot rule of safe_filename: if the text ends with a dot,
drop that one final character. -/
def dropTrailingDot (l : List Char) : List Char :=
  if l.getLast? = some '.' then l.dropLast else l

/-- Character-list core of safe_filename: substitute the reserved set,
collapse whitespace runs, strip, drop one trailing dot, truncate to 200
code points. -/
def safeFilenameCore (l : List Char) : List Char :=
  (dropTrailingDot (pyStrip (collapseWs (subReserved l)))).take 200

/-- The sanitizer safe_filename of the source, on Lean strings. -/
def safe_filename (s : String) : String :=
  String.mk (safeFilenameCore s.data)

/-- One entry of the fetched catalog: the name and publicUrl fields of a
JSON document object, each possibly absent. -/
structure DocRecord where
  name? : Option String
  publicUrl? : Option String

/-- Python doc.get applied to the name field with its default. -/
def DocRecord.name (d : DocRecord) : String :=
  d.name?.getD "no-name-found"

/-- Python doc.get applied to the publicUrl field with its default. -/
def DocRecord.publicUrl (d : DocRecord) : String :=
  d.publicUrl?.getD "no-url-found"

/-- Worker for the Python substring test. -/
def pyInCore : List Char → List Char → Bool
  | needle, [] => needle.isEmpty
  | needle, c :: rest => needle.isPrefixOf (c :: rest) || pyInCore needle rest

/-- Python membership test on strings: the first string occurs as a
contiguous substring of the second. -/
def pyIn (needle hay : String) : Bool :=
  pyInCore needle.data hay.data

/-- The download directory name derived from the site name. -/
def downloadDir (siteName : String) : String :=
  "downloaded_" ++ siteName

/-- The comment line written for a record with no usable publicUrl. -/
def skipLine (name : String) : String :=
  "# SKIPPING: No publicUrl found for \x27" ++ name ++ "\x27"

/-- The progress echo line written before each download command. -/
def echoLine (name : String) : String :=
  "echo \"Downloading: " ++ name ++ "\""

/-- The download command for one record: wget with a browser-like
User-Agent, certificate checking disabled, an explicit output file, and
the record's URL as the source. -/
def wgetLine (outPath url : String) : String :=
  "wget -U \"Mozilla/5.0\" --no-check-certificate -O \"" ++ outPath ++
  "\" \"" ++ url ++ "\""

/-- POSIX os.path.join on two components, as used for the output path. -/
def pathJoin (a b : String) : String :=
  if b.data.head? = some '/' then b
  else if a.data = [] ∨ a.data.getLast? = some '/' then a ++ b
  else a ++ "/" ++ b

/-- The lines the script writer emits for one catalog record: either a
skip comment (when the publicUrl contains the sentinel) or a progress echo
followed by one wget invocation; each block ends with a blank line coming
from the trailing empty line of the write. -/
def docScriptLines (siteName : String) (d : DocRecord) : List String :=
  if pyIn "no-url-found" d.publicUrl then
    [skipLine d.name, ""]
  else
    [echoLine d.name,
     wgetLine (pathJoin (downloadDir siteName) (safe_filename d.name ++ ".pdf"))
       d.publicUrl,
     ""]

/-- The fixed preamble of the generated script: shebang, banner comment,
and the mkdir command for the download directory. -/
def scriptHeaderLines (siteName : String) : List String :=
  ["#!/bin/sh",
   "# Auto-generated PowerDMS download script",
   "",
   "# Create the download directory if it doesn\x27t exist",
   "mkdir -p \"" ++ downloadDir siteName ++ "\"",
   ""]

/-- All lines of the generated download script, in order. -/
def scriptAllLines (siteName : String) (records : List DocRecord) : List String :=
  scriptHeaderLines siteName ++ (records.map (docScriptLines siteName)).flatten

/-- The full text of the generated script file. -/
def scriptText (siteName : String) (records : List DocRecord) : String :=
  String.intercalate "\n" (scriptAllLines siteName records) ++ "\n"

/-- Whether the csv module would quote a field under minimal quoting:
the field contains the delimiter, the quote character, or a line
terminator character. -/
def csvNeedsQuote (s : String) : Bool :=
  s.data.any (fun c => c = ',' || c = '"' || c = '\r' || c = '\n')

/-- Double every quote character of a quoted csv field. -/
def csvEscapeQuotes (s : String) : String :=
  String.mk (s.data.foldr (fun c acc => if c = '"' then '"' :: '"' :: acc else c :: acc) [])

/-- One rendered csv field under the csv module's minimal quoting. -/
def csvField (s : String) : String :=
  if csvNeedsQuote s then "\"" ++ csvEscapeQuotes s ++ "\"" else s

/-- One rendered csv row; the csv writer's default line terminator. -/
def csvLine (cells : List String) : String :=
  String.intercalate "," (cells.map csvField) ++ "\r\n"

/-- The data rows of the index file: the raw name and raw publicUrl of
each record, defaults included, in catalog order. -/
def csvDataRows (records : List DocRecord) : List (String × String) :=
  records.map (fun d => (d.name, d.publicUrl))

/-- The full text of the index file: header row then one row per record. -/
def csvText (records : List DocRecord) : String :=
  csvLine ["name", "url"] ++
  String.join ((csvDataRows records).map (fun r => csvLine [r.1, r.2]))

/-- JSON values as returned by the json parser. -/
inductive JVal where
  | null
  | bool (b : Bool)
  | num (n : Int)
  | str (s : String)
  | arr (elems : List JVal)
  | obj (fields : List (String × JVal))

/-- Association-list lookup for object fields (parsed objects have one
value per key). -/
def jlookup : List (String × JVal) → String → Option JVal
  | [], _ => none
  | (k, v) :: rest, key => if k = key then some v else jlookup rest key

/-- Python data.get(key) on a parsed JSON value.  A JSON null field and an
absent field both come out as none, exactly as both become Python None; on
a non-object the Python expression would raise (a case outside every
documented path and every claim), modeled as an absent field. -/
def JVal.dictGet : JVal → String → Option JVal
  | .obj fields, key => jlookup fields key
  | _, _ => none

/-- Extract the payload of a JSON string value. -/
def JVal.asString? : JVal → Option String
  | .str s => some s
  | _ => none

/-- One catalog element as the writer sees it.  The claims and the spec
concern string-typed name and publicUrl fields; a non-string field would
make the Python crash later (a TypeError on the substring test or on the
csv write), and is modeled as an absent field. -/
def toDocRecord (j : JVal) : DocRecord :=
  match j with
  | .obj fields =>
    { name? := (jlookup fields "name").bind JVal.asString?
      publicUrl? := (jlookup fields "publicUrl").bind JVal.asString? }
  | _ => { name? := none, publicUrl? := none }

/-- The two components of the user URL the resolver reads, as produced by
urlparse (a stdlib call): network location and path. -/
structure ParsedUrl where
  netloc : String
  path : String

/-- Python str.split on a single separator character: split at every
occurrence, keeping empty pieces. -/
def splitOnChar (sep : Char) : List Char → List (List Char)
  | [] => [[]]
  | c :: rest =>
    let groups := splitOnChar sep rest
    if c = sep then [] :: groups
    else
      match groups with
      | [] => [[c]]
      | g :: gs => (c :: g) :: gs

/-- Python str.endswith: suffix test on code points. -/
def pyEndsWith (s suffix : String) : Bool :=
  suffix.data.isSuffixOf s.data

/-- The non-empty segments of the URL path, in order. -/
def nonEmptyParts (path : String) : List (List Char) :=
  (splitOnChar '/' path.data).filter (fun p => p ≠ [])

/-- The URL resolver: the host must end with the hosting suffix and the
path must contain a non-empty segment; the first segment is the site
name. -/
def resolveSite (u : ParsedUrl) : Option String :=
  match nonEmptyParts u.path with
  | [] => none
  | first :: _ =>
    if pyEndsWith u.netloc "powerdms.com" then some (String.mk first) else none

/-- Terminal condition of one run, one per documented outcome class. -/
inductive Outcome where
  | invalidSiteURL
  | transportError
  | httpStatusError (status : Nat)
  | malformedResponse
  | unexpectedShape
  | emptyCatalog
  | success
  deriving DecidableEq

/-- Content of one file write: raw text, or the pretty-printed dump of a
parsed JSON structure (its exact rendering is irrelevant to every claim). -/
inductive FileContent where
  | text (s : String)
  | jsonDump (j : JVal)

/-- One file effect of the pipeline: path and content. -/
abbrev FileWrite := String × FileContent

/-- Result of the one HTTP GET together with the attempted JSON decode,
the external part of the pipeline: a transport-level failure, a non-2xx
status, or a body with the result of the json parse (none when decoding
fails). -/
inductive FetchOutcome where
  | requestError
  | httpError (status : Nat)
  | ok (rawBody : String) (parsed : Option JVal)

/-- The pipeline of scrape_powerdms_site after the fetch result is known:
resolve the site, then branch exactly as the source does, returning the
terminal outcome and the list of file writes in order. -/
def scrape_powerdms_site (u : ParsedUrl) (fetch : FetchOutcome) :
    Outcome × List FileWrite :=
  match resolveSite u with
  | none => (.invalidSiteURL, [])
  | some siteName =>
    match fetch with
    | .requestError => (.transportError, [])
    | .httpError status => (.httpStatusError status, [])
    | .ok rawBody none =>
      (.malformedResponse, [("error_response.html", .text rawBody)])
    | .ok _ (some data) =>
      match data.dictGet "data" with
      | none => (.unexpectedShape, [("debug.json", .jsonDump data)])
      | some (.arr []) => (.emptyCatalog, [])
      | some (.arr elems) =>
        let records := elems.map toDocRecord
        (.success,
         [(siteName ++ "_documents.csv", .text (csvText records)),
          ("download_" ++ siteName ++ ".sh",
           .text (scriptText siteName records))])
      | some _ => (.unexpectedShape, [("debug.json", .jsonDump data)])

/-! Lemmas about the sanitizer. -/

/-- Every character of the first substitution's output is non-reserved:
reserved characters became spaces and spaces are not reserved. -/
theorem mem_subReserved {c : Char} {l : List Char} (h : c ∈ subReserved l) :
    reservedChar c = false := by
  rcases List.mem_map.1 h with ⟨a, -, rfl⟩
  cases ha : reservedChar a with
  | false => simp [ha]
  | true =>
    simp only [ha, if_true]
    decide

/-- Every character of the collapsed text is non-whitespace, and is either
the underscore or a character of the input. -/
theorem mem_collapseWsAux {c : Char} {l : List Char} {b : Bool}
    (h : c ∈ collapseWsAux l b) : pySpace c = false ∧ (c = '_' ∨ c ∈ l) := by
  induction l generalizing b with
  | nil => cases h
  | cons a rest ih =>
    by_cases ha : pySpace a = true
    · cases b with
      | true =>
        simp only [collapseWsAux, ha, if_true] at h
        rcases ih h with ⟨h1, h2⟩
        exact ⟨h1, h2.imp id (List.mem_cons_of_mem a)⟩
      | false =>
        simp [collapseWsAux, ha] at h
        rcases h with rfl | h
        · exact ⟨by decide, Or.inl rfl⟩
        · rcases ih h with ⟨h1, h2⟩
          exact ⟨h1, h2.imp id (List.mem_cons_of_mem a)⟩
    · simp [collapseWsAux, ha] at h
      rcases h with rfl | h
      · exact ⟨eq_false_of_ne_true ha, Or.inr (List.mem_cons_self c rest)⟩
      · rcases ih h with ⟨h1, h2⟩
        exact ⟨h1, h2.imp id (List.mem_cons_of_mem _)⟩

/-- The collapse leaves a whitespace-free list unchanged. -/
theorem collapseWsAux_of_no_space {l : List Char}
    (h : ∀ c ∈ l, pySpace c = false) : ∀ b, collapseWsAux l b = l := by
  induction l with
  | nil => intro b; rfl
  | cons a rest ih =>
    intro b
    have ha : pySpace a = false := h a (List.mem_cons_self a rest)
    simp [collapseWsAux, ha]
    exact ih (fun c hc => h c (List.mem_cons_of_mem a hc)) false

/-- Dropping leading whitespace from a whitespace-free list is the
identity. -/
theorem dropWhile_pySpace_eq_self {l : List Char}
    (h : ∀ c ∈ l, pySpace c = false) : l.dropWhile pySpace = l := by
  cases l with
  | nil => rfl
  | cons a rest =>
    have ha : pySpace a = false := h a (List.mem_cons_self a rest)
    simp [List.dropWhile_cons, ha]

/-- The strip leaves a whitespace-free list unchanged. -/
theorem pyStrip_of_no_space {l : List Char}
    (h : ∀ c ∈ l, pySpace c = false) : pyStrip l = l := by
  unfold pyStrip
  rw [dropWhile_pySpace_eq_self h,
      dropWhile_pySpace_eq_self (fun c hc => h c (List.mem_reverse.1 hc)),
      List.reverse_reverse]

/-- The strip only removes characters. -/
theorem mem_pyStrip {c : Char} {l : List Char} (h : c ∈ pyStrip l) : c ∈ l := by
  unfold pyStrip at h
  rw [List.mem_reverse] at h
  have h1 : c ∈ (l.dropWhile pySpace).reverse :=
    (List.dropWhile_sublist pySpace).subset h
  rw [List.mem_reverse] at h1
  exact (List.dropWhile_sublist pySpace).subset h1

/-- The trailing-dot rule only removes a character. -/
theorem mem_dropTrailingDot {c : Char} {l : List Char}
    (h : c ∈ dropTrailingDot l) : c ∈ l := by
  unfold dropTrailingDot at h
  split at h
  · exact (List.dropLast_sublist l).subset h
  · exact h

/-- Every character of the sanitizer's output is neither reserved nor
whitespace. -/
theorem mem_safeFilenameCore {c : Char} {l : List Char}
    (h : c ∈ safeFilenameCore l) : reservedChar c = false ∧ pySpace c = false := by
  unfold safeFilenameCore at h
  have h1 := (List.take_sublist 200 _).subset h
  have h2 := mem_dropTrailingDot h1
  have h3 := mem_pyStrip h2
  rcases mem_collapseWsAux h3 with ⟨hs, hm⟩
  refine ⟨?_, hs⟩
  rcases hm with rfl | hm
  · decide
  · exact mem_subReserved hm

/-- The sanitizer's output is at most 200 code points. -/
theorem length_safeFilenameCore_le (l : List Char) :
    (safeFilenameCore l).length ≤ 200 :=
  List.length_take_le 200 _

/-- The first substitution leaves a reserved-free list unchanged. -/
theorem subReserved_of_no_reserved {l : List Char}
    (h : ∀ c ∈ l, reservedChar c = false) : subReserved l = l := by
  unfold subReserved
  induction l with
  | nil => rfl
  | cons a rest ih =>
    have ha := h a (List.mem_cons_self a rest)
    rw [List.map_cons, if_neg (by simp [ha]),
        ih (fun c hc => h c (List.mem_cons_of_mem a hc))]

/-- A second pass of the sanitizer's core is the identity whenever the
first output does not end in a dot. -/
theorem safeFilenameCore_idem {l : List Char}
    (h : (safeFilenameCore l).getLast? ≠ some '.') :
    safeFilenameCore (safeFilenameCore l) = safeFilenameCore l := by
  have hres : ∀ c ∈ safeFilenameCore l, reservedChar c = false :=
    fun c hc => (mem_safeFilenameCore hc).1
  have hsp : ∀ c ∈ safeFilenameCore l, pySpace c = false :=
    fun c hc => (mem_safeFilenameCore hc).2
  conv_lhs => rw [safeFilenameCore]
  rw [show collapseWs (subReserved (safeFilenameCore l)) = safeFilenameCore l by
        rw [subReserved_of_no_reserved hres]
        exact collapseWsAux_of_no_space hsp false,
      pyStrip_of_no_space hsp]
  unfold dropTrailingDot
  rw [if_neg h]
  exact List.take_of_length_le (length_safeFilenameCore_le l)

/-- Collapsing an all-whitespace list while already inside a run yields
nothing. -/
theorem collapseWsAux_all_space_true {l : List Char}
    (h : ∀ c ∈ l, pySpace c = true) : collapseWsAux l true = [] := by
  induction l with
  | nil => rfl
  | cons a rest ih =>
    have ha := h a (List.mem_cons_self a rest)
    simp [collapseWsAux, ha]
    exact ih (fun c hc => h c (List.mem_cons_of_mem a hc))

/-- Collapsing a non-empty all-whitespace list yields a single
underscore. -/
theorem collapseWsAux_all_space_false {l : List Char} (hne : l ≠ [])
    (h : ∀ c ∈ l, pySpace c = true) : collapseWsAux l false = ['_'] := by
  cases l with
  | nil => exact absurd rfl hne
  | cons a rest =>
    have ha := h a (List.mem_cons_self a rest)
    simp [collapseWsAux, ha]
    exact collapseWsAux_all_space_true (fun c hc => h c (List.mem_cons_of_mem a hc))

/-- Claim C5: for every input string, the sanitizer's output contains none
of the reserved characters of the set replaced by the first substitution. -/
theorem claim5_no_reserved_output (s : String) :
    ((safe_filename s).data.all (fun c => !reservedChar c)) = true := by
  rw [List.all_eq_true]
  intro c hc
  have h1 : reservedChar c = false := (mem_safeFilenameCore hc).1
  simp [h1]

/-- Claim C2 (amended): the sanitizer is idempotent on every input whose
sanitized form does not end with a dot.  (The original claim fails: the
trailing-dot rule removes only one dot, so a sanitized form can itself end
with a dot, on which a second application differs.) -/
theorem claim2_idempotent_unless_trailing_dot (s : String)
    (h : (safe_filename s).data.getLast? ≠ some '.') :
    safe_filename (safe_filename s) = safe_filename s := by
  unfold safe_filename
  exact congrArg String.mk (safeFilenameCore_idem h)

/-- Claim C2, witness: a concrete input satisfying the hypothesis. -/
theorem claim2_witness :
    (safe_filename "doc").data.getLast? ≠ some '.' ∧
    safe_filename (safe_filename "doc") = safe_filename "doc" :=
  ⟨by decide, claim2_idempotent_unless_trailing_dot "doc" (by decide)⟩

/-- Claim C2, counterexample to the claim as stated: sanitizing a name
ending in two dots yields a name ending in one dot, and a second
application removes it, so the sanitizer is not idempotent on all inputs. -/
theorem claim2_counterexample :
    safe_filename (safe_filename "a..") ≠ safe_filename "a.." := by decide

/-- Claim C3 (amended): the final strip of the sanitizer removes only
whitespace, which cannot survive the collapse, so leading and trailing
underscores produced by the collapse are kept; in particular a non-empty
input consisting entirely of reserved characters and whitespace sanitizes
to a single underscore, not to the empty string. -/
theorem claim3_underscores_kept (s : String)
    (h1 : s.data ≠ [])
    (h2 : ∀ c ∈ s.data, reservedChar c = true ∨ pySpace c = true) :
    safe_filename s = "_" ∧
    pyStrip (collapseWs (subReserved s.data)) = collapseWs (subReserved s.data) := by
  have hstrip : ∀ t : List Char,
      pyStrip (collapseWs (subReserved t)) = collapseWs (subReserved t) :=
    fun t => pyStrip_of_no_space (fun c hc => (mem_collapseWsAux hc).1)
  have hsub : ∀ c ∈ subReserved s.data, pySpace c = true := by
    intro c hc
    rcases List.mem_map.1 hc with ⟨a, ha, rfl⟩
    by_cases hr : reservedChar a = true
    · simp only [hr, if_true]
      decide
    · rcases h2 a ha with h | h
      · exact absurd h hr
      · simpa [hr] using h
  have hne : subReserved s.data ≠ [] := by
    intro hmap
    apply h1
    have hlen := congrArg List.length hmap
    simp only [subReserved, List.length_map] at hlen
    exact List.length_eq_zero.mp hlen
  have hcol : collapseWs (subReserved s.data) = ['_'] :=
    collapseWsAux_all_space_false hne hsub
  refine ⟨?_, hstrip s.data⟩
  unfold safe_filename safeFilenameCore
  rw [hcol]
  decide

/-- Claim C3, witness: a concrete input, one reserved character. -/
theorem claim3_witness :
    (("/" : String).data ≠ [] ∧
      ∀ c ∈ ("/" : String).data, reservedChar c = true ∨ pySpace c = true) ∧
    safe_filename "/" = "_" :=
  ⟨⟨by decide, by decide⟩, (claim3_underscores_kept "/" (by decide) (by decide)).1⟩

/-- Claim C3, counterexample to the claim as stated: an input consisting
entirely of reserved characters sanitizes to an underscore, not to the
empty string, and a leading underscore produced by the collapse is kept. -/
theorem claim3_counterexample :
    safe_filename "/" ≠ "" ∧ safe_filename "/" = "_" ∧ safe_filename " a" = "_a" := by
  refine ⟨by decide, by decide, by decide⟩

/-- Two-record catalog whose document titles differ only in which
reserved character they contain. -/
def collisionRecords : List DocRecord :=
  [{ name? := some "a/b", publicUrl? := some "https://x/1.pdf" },
   { name? := some "a:b", publicUrl? := some "https://x/2.pdf" }]

/-- Claim C9: the sanitizer is not injective; two distinct titles
differing only in their reserved character share the sanitized stem, and
the generated script then contains two download invocations writing to
the identical output path from two different source URLs (the second
overwriting the first when the script runs). -/
theorem claim9_sanitizer_collision :
    safe_filename "a/b" = safe_filename "a:b" ∧
    ("a/b" : String) ≠ "a:b" ∧
    wgetLine (pathJoin (downloadDir "s") (safe_filename "a/b" ++ ".pdf"))
        "https://x/1.pdf" ∈ scriptAllLines "s" collisionRecords ∧
    wgetLine (pathJoin (downloadDir "s") (safe_filename "a:b" ++ ".pdf"))
        "https://x/2.pdf" ∈ scriptAllLines "s" collisionRecords ∧
    pathJoin (downloadDir "s") (safe_filename "a/b" ++ ".pdf") = "downloaded_s/a_b.pdf" ∧
    ("https://x/1.pdf" : String) ≠ "https://x/2.pdf" := by
  refine ⟨by decide, by decide, by decide, by decide, by decide, by decide⟩

/-- Appending strings appends their character lists. -/
theorem string_data_append (s t : String) : (s ++ t).data = s.data ++ t.data := rfl

/-- Unfolding the sanitizer wrapper to its character-list core. -/
theorem data_safe_filename (s : String) : (safe_filename s).data = safeFilenameCore s.data := rfl

/-- The last element named by getLast? is a member. -/
theorem mem_of_getLast_eq {l : List Char} {a : Char} (h : l.getLast? = some a) :
    a ∈ l := by
  induction l with
  | nil => cases h
  | cons x t ih =>
    cases t with
    | nil =>
      simp [List.getLast?] at h
      simp [h]
    | cons y u =>
      rw [List.getLast?_cons_cons] at h
      exact List.mem_cons_of_mem x (ih h)

/-- The join takes its general branch when the second component does not
start with a slash and the first is non-empty and does not end with one. -/
theorem pathJoin_eq_slash {a b : String}
    (hb : b.data.head? ≠ some '/')
    (ha1 : a.data ≠ [])
    (ha2 : a.data.getLast? ≠ some '/') :
    pathJoin a b = a ++ "/" ++ b := by
  unfold pathJoin
  rw [if_neg hb, if_neg (not_or.mpr ⟨ha1, ha2⟩)]

/-- A sanitized stem with the pdf extension never starts with a slash:
the slash is reserved and the extension starts with a dot. -/
theorem sanitized_pdf_head (n : String) :
    (safe_filename n ++ ".pdf").data.head? ≠ some '/' := by
  rw [string_data_append, data_safe_filename]
  cases hl : safeFilenameCore n.data with
  | nil => decide
  | cons c rest =>
    have hcmem : c ∈ safeFilenameCore n.data := by
      rw [hl]
      exact List.mem_cons_self c rest
    have hc : reservedChar c = false := (mem_safeFilenameCore hcmem).1
    simp only [List.cons_append, List.head?_cons, ne_eq, Option.some.injEq]
    intro hEq
    subst hEq
    exact absurd hc (by decide)

/-- The download directory name is never empty. -/
theorem downloadDir_data_ne_nil (site : String) : (downloadDir site).data ≠ [] := by
  rw [show (downloadDir site).data = "downloaded_".data ++ site.data from rfl]
  intro hEq
  exact absurd (List.append_eq_nil.mp hEq).1 (by decide)

/-- When the site name contains no slash, the download directory name does
not end with one. -/
theorem downloadDir_last {site : String} (h : ('/' : Char) ∉ site.data) :
    (downloadDir site).data.getLast? ≠ some '/' := by
  rw [show (downloadDir site).data = "downloaded_".data ++ site.data from rfl]
  cases hs : site.data with
  | nil => decide
  | cons a rest =>
    rw [List.getLast?_append_of_ne_nil _ (List.cons_ne_nil a rest)]
    rw [hs] at h
    intro hEq
    exact h (mem_of_getLast_eq hEq)

/-- For a slash-free site name the output path of a record is the download
directory, a slash, the sanitized stem and the pdf extension. -/
theorem wget_output_path (site n : String) (hsite : ('/' : Char) ∉ site.data) :
    pathJoin (downloadDir site) (safe_filename n ++ ".pdf") =
      downloadDir site ++ "/" ++ (safe_filename n ++ ".pdf") :=
  pathJoin_eq_slash (sanitized_pdf_head n) (downloadDir_data_ne_nil site) (downloadDir_last hsite)

/-- Claim C1 (amended): for every record, the script writer emits a skip
comment and no download line when the record's publicUrl CONTAINS the
missing-value sentinel as a substring (in particular when it equals it),
and otherwise emits a progress echo line and exactly one download
invocation that sets a browser-like User-Agent, disables certificate
verification, writes to the sanitized pdf path under the download
directory, and sources the record's publicUrl.  (The original claim fails
because the source tests substring containment, not equality.) -/
theorem claim1_skip_by_substring (site : String) (d : DocRecord)
    (hsite : ('/' : Char) ∉ site.data) :
    docScriptLines site d =
      (if pyIn "no-url-found" d.publicUrl then
        ["# SKIPPING: No publicUrl found for \x27" ++ d.name ++ "\x27", ""]
      else
        ["echo \"Downloading: " ++ d.name ++ "\"",
         "wget -U \"Mozilla/5.0\" --no-check-certificate -O \"" ++
           (downloadDir site ++ "/" ++ (safe_filename d.name ++ ".pdf")) ++
           "\" \"" ++ d.publicUrl ++ "\"",
         ""]) := by
  unfold docScriptLines skipLine echoLine wgetLine
  cases hb : pyIn "no-url-found" d.publicUrl with
  | true => simp [hb]
  | false =>
    simp only [hb, Bool.false_eq_true, if_false]
    rw [wget_output_path site d.name hsite]

/-- Claim C1, witness: a concrete record with a usable URL on a concrete
slash-free site name. -/
theorem claim1_witness :
    docScriptLines "s" { name? := some "A B", publicUrl? := some "https://x/a.pdf" } =
      (if pyIn "no-url-found"
            (DocRecord.publicUrl { name? := some "A B", publicUrl? := some "https://x/a.pdf" }) then
        ["# SKIPPING: No publicUrl found for \x27" ++
           DocRecord.name { name? := some "A B", publicUrl? := some "https://x/a.pdf" } ++ "\x27", ""]
      else
        ["echo \"Downloading: " ++
           DocRecord.name { name? := some "A B", publicUrl? := some "https://x/a.pdf" } ++ "\"",
         "wget -U \"Mozilla/5.0\" --no-check-certificate -O \"" ++
           (downloadDir "s" ++ "/" ++
             (safe_filename (DocRecord.name { name? := some "A B", publicUrl? := some "https://x/a.pdf" }) ++ ".pdf")) ++
           "\" \"" ++
           DocRecord.publicUrl { name? := some "A B", publicUrl? := some "https://x/a.pdf" } ++ "\"",
         ""]) :=
  claim1_skip_by_substring "s" _ (by decide)

/-- Claim C1, counterexample to the claim as stated: a record whose
publicUrl differs from the sentinel but contains it as a substring gets a
skip comment and no download invocation, although the claim requires one
for every publicUrl different from the sentinel. -/
theorem claim1_counterexample :
    DocRecord.publicUrl { name? := some "Doc", publicUrl? := some "https://x/no-url-found.pdf" } ≠
      "no-url-found" ∧
    docScriptLines "s" { name? := some "Doc", publicUrl? := some "https://x/no-url-found.pdf" } =
      ["# SKIPPING: No publicUrl found for \x27Doc\x27", ""] :=
  ⟨by decide, by decide⟩

/-- Claim C10: the script writer performs no escaping of server-supplied
text outside the output path: the raw document name appears verbatim
inside the double-quoted echo line and the single-quoted part of the skip
comment, and the raw publicUrl verbatim inside the double-quoted download
argument; concretely, a name containing double quotes produces an echo
line with those quotes kept unescaped (four quote characters and no
backslash in the line). -/
theorem claim10_verbatim_interpolation (site n u p : String) :
    skipLine n = "# SKIPPING: No publicUrl found for \x27" ++ n ++ "\x27" ∧
    echoLine n = "echo \"Downloading: " ++ n ++ "\"" ∧
    wgetLine p u =
      "wget -U \"Mozilla/5.0\" --no-check-certificate -O \"" ++ p ++ "\" \"" ++ u ++ "\"" ∧
    docScriptLines site { name? := some n, publicUrl? := some u } =
      (if pyIn "no-url-found" u then [skipLine n, ""]
       else [echoLine n,
             wgetLine (pathJoin (downloadDir site) (safe_filename n ++ ".pdf")) u,
             ""]) ∧
    (echoLine "say \"stop\"").data.count '"' = 4 ∧
    (echoLine "say \"stop\"").data.count '\\' = 0 :=
  ⟨rfl, rfl, rfl, rfl, by decide, by decide⟩

/-- Claim C8: every data row of the CSV whose URL does not contain the
skip sentinel has a download invocation in the generated script whose
output path carries the sanitized row name as its stem and whose source is
the row's URL. -/
theorem claim8_csv_script_roundtrip (site : String) (records : List DocRecord)
    (n u : String) (hrow : (n, u) ∈ csvDataRows records)
    (hskip : pyIn "no-url-found" u = false) :
    wgetLine (pathJoin (downloadDir site) (safe_filename n ++ ".pdf")) u ∈
      scriptAllLines site records := by
  rcases List.mem_map.1 hrow with ⟨d, hd, hEq⟩
  cases hEq
  unfold scriptAllLines
  refine List.mem_append_right _ ?_
  rw [List.mem_flatten]
  refine ⟨docScriptLines site d, List.mem_map_of_mem _ hd, ?_⟩
  unfold docScriptLines
  rw [if_neg (by simp [hskip])]
  exact List.mem_cons_of_mem _ (List.mem_cons_self _ _)

/-- Claim C8, witness: a one-record catalog with a usable URL. -/
theorem claim8_witness :
    wgetLine (pathJoin (downloadDir "s") (safe_filename "A" ++ ".pdf")) "https://x/a.pdf" ∈
      scriptAllLines "s" [{ name? := some "A", publicUrl? := some "https://x/a.pdf" }] :=
  claim8_csv_script_roundtrip "s" _ "A" "https://x/a.pdf" (by decide) (by decide)

/-- Claim C6: when the host does not end with the hosting suffix, or the
path has no non-empty segment, the run ends with the invalid-site outcome
and writes no files, whatever the fetch would have returned. -/
theorem claim6_invalid_url_no_files (u : ParsedUrl) (fetch : FetchOutcome)
    (h : pyEndsWith u.netloc "powerdms.com" = false ∨ nonEmptyParts u.path = []) :
    scrape_powerdms_site u fetch = (.invalidSiteURL, []) := by
  have hres : resolveSite u = none := by
    unfold resolveSite
    cases hp : nonEmptyParts u.path with
    | nil => rfl
    | cons a rest =>
      show (if pyEndsWith u.netloc "powerdms.com" = true then some (String.mk a) else none) = none
      rcases h with h | h
      · rw [if_neg (by simp [h])]
      · rw [hp] at h
        exact absurd h (List.cons_ne_nil a rest)
  simp [scrape_powerdms_site, hres]

/-- Claim C6, witness: a host outside the hosting domain. -/
theorem claim6_witness :
    scrape_powerdms_site { netloc := "example.com", path := "/Site/tree/1" }
        FetchOutcome.requestError = (.invalidSiteURL, []) :=
  claim6_invalid_url_no_files _ _ (Or.inl (by decide))

/-- Claim C4: on a response body that does not parse as JSON, the pipeline
writes exactly one file, the diagnostic error_response.html holding the
raw body, and in particular no file ending in .csv or .sh. -/
theorem claim4_malformed_writes_diagnostic (u : ParsedUrl) (raw : String)
    (hdom : pyEndsWith u.netloc "powerdms.com" = true)
    (hpath : nonEmptyParts u.path ≠ []) :
    scrape_powerdms_site u (.ok raw none) =
      (.malformedResponse, [("error_response.html", .text raw)]) ∧
    ∀ w ∈ (scrape_powerdms_site u (.ok raw none)).2,
      pyEndsWith w.1 ".csv" = false ∧ pyEndsWith w.1 ".sh" = false := by
  cases hp : nonEmptyParts u.path with
  | nil => exact absurd hp hpath
  | cons first rest =>
    have hres : resolveSite u = some (String.mk first) := by
      unfold resolveSite
      rw [hp]
      simp [hdom]
    constructor
    · simp [scrape_powerdms_site, hres]
    · intro w hw
      simp [scrape_powerdms_site, hres] at hw
      rw [hw]
      constructor
      · show pyEndsWith "error_response.html" ".csv" = false
        decide
      · show pyEndsWith "error_response.html" ".sh" = false
        decide

/-- Claim C4, witness: a concrete valid site URL and a non-JSON body. -/
theorem claim4_witness :
    scrape_powerdms_site
        { netloc := "public.powerdms.com", path := "/MassStatePolice/tree/147101" }
        (.ok "<html>not json</html>" none) =
      (.malformedResponse, [("error_response.html", .text "<html>not json</html>")]) :=
  (claim4_malformed_writes_diagnostic _ _ (by decide) (by decide)).1

/-- Claim C7: when the parsed response carries an empty data collection,
the run ends with the empty-catalog outcome, writes no files, and that
outcome is a different terminal condition from the two structural-failure
outcomes. -/
theorem claim7_empty_catalog_no_files (u : ParsedUrl) (raw : String) (data : JVal)
    (hdom : pyEndsWith u.netloc "powerdms.com" = true)
    (hpath : nonEmptyParts u.path ≠ [])
    (hdata : data.dictGet "data" = some (JVal.arr [])) :
    scrape_powerdms_site u (.ok raw (some data)) = (.emptyCatalog, []) ∧
    Outcome.emptyCatalog ≠ Outcome.unexpectedShape ∧
    Outcome.emptyCatalog ≠ Outcome.malformedResponse := by
  cases hp : nonEmptyParts u.path with
  | nil => exact absurd hp hpath
  | cons first rest =>
    have hres : resolveSite u = some (String.mk first) := by
      unfold resolveSite
      rw [hp]
      simp [hdom]
    refine ⟨?_, by decide, by decide⟩
    simp [scrape_powerdms_site, hres, hdata]

/-- Claim C7, witness: a parsed body holding an object with an empty data
array. -/
theorem claim7_witness :
    scrape_powerdms_site { netloc := "public.powerdms.com", path := "/Site/documents" }
        (.ok "x" (some (JVal.obj [("data", JVal.arr [])]))) = (.emptyCatalog, []) :=
  (claim7_empty_catalog_no_files { netloc := "public.powerdms.com", path := "/Site/documents" }
    "x" (JVal.obj [("data", JVal.arr [])]) (by decide) (by decide) rfl).1
